import Mathlib

/-!
Verification development for the Syllabus Kitty browser extension
(extension/content/contentScript.js and extension/popup/popup.js).

The JavaScript is shallowly embedded: strings are lists of characters
(JS string indices are UTF-16 units; all inputs considered here are
ASCII, where the two notions of length coincide), the DOM is a rose
tree of text nodes and element nodes, the popup state is an explicit
record, and remote services are oracles passed in as arguments.
Every definition below is translated from the source file; section
comments cite the source lines.
-/

/-- JS strings are modelled as lists of characters. -/
abbrev Str := List Char

/-- Coerce a Lean string literal into the model. -/
def str (s : String) : Str := s.toList

/-- The characters the JS regex class backslash-s matches (ASCII part:
space, tab, newline, carriage return, vertical tab, form feed).  All
texts considered in this development are ASCII. -/
def isJsWs (c : Char) : Bool :=
  c = ' ' || c = '\t' || c = '\n' || c = '\r' || c = Char.ofNat 11 || c = Char.ofNat 12

/-- JS String.prototype.trim: strip whitespace from both ends. -/
def trimStr (s : Str) : Str :=
  ((s.dropWhile isJsWs).reverse.dropWhile isJsWs).reverse

/-- JS String.prototype.toLowerCase (ASCII case folding). -/
def toLowerStr (s : Str) : Str := s.map Char.toLower

/-- Boolean test for the list IsPrefix relation. -/
def startsWithL : Str → Str → Bool
  | [], _ => true
  | _ :: _, [] => false
  | a :: as, b :: bs => (a = b) && startsWithL as bs

/-- JS String.prototype.includes: does `needle` occur as a contiguous
substring of `hay`? -/
def containsSeq : Str → Str → Bool
  | hay, needle =>
    startsWithL needle hay ||
      (match hay with
       | [] => false
       | _ :: t => containsSeq t needle)

/-!
## Syllabus Detector — contentScript.js lines 149-180

`detectSyllabusContent` lowercases the page text, filters the fixed
16-phrase indicator vocabulary by substring occurrence, and derives
the match flag and confidence from the number of matches.
-/

/-- The fixed indicator vocabulary, in source order
(contentScript.js lines 152-169). -/
def syllabusIndicators : List Str :=
  [str "syllabus",
   str "course outline",
   str "course schedule",
   str "learning objectives",
   str "course objectives",
   str "grading policy",
   str "attendance policy",
   str "required textbook",
   str "office hours",
   str "instructor:",
   str "professor:",
   str "prerequisites",
   str "course description",
   str "assignments",
   str "final exam",
   str "midterm"]

structure DetectionResult where
  isSyllabus : Bool
  confidence : ℚ
  matchedTerms : List Str
  deriving DecidableEq, Repr

/-- contentScript.js lines 149-180.  The page text argument stands for
document.body.textContent. -/
def detectSyllabusContent (pageText : Str) : DetectionResult :=
  let lower := toLowerStr pageText
  let matchedIndicators := syllabusIndicators.filter (fun ind => containsSeq lower ind)
  { isSyllabus := decide (3 ≤ matchedIndicators.length)
    confidence := min ((matchedIndicators.length : ℚ) / 5) 1
    matchedTerms := matchedIndicators }

/-!
## DOM model

The live page is modelled as a rose tree rooted at document.body.  An
element node records the attributes the source inspects: tag name, id,
role attribute and class list.  Style injection
(injectHighlightStyles, contentScript.js lines 250-275) only touches
document.head and therefore lies outside this body model; it never
changes the visible text of the body.
-/

inductive Dom where
  | text (s : Str)
  | elem (tag : String) (idAttr : String) (role : String) (classes : List String)
      (children : List Dom)
  deriving Repr

/-- Concatenated text of all text nodes, in document order
(Node.textContent). -/
def textContent : Dom → Str
  | .text s => s
  | .elem _ _ _ _ cs => go cs
where go : List Dom → Str
  | [] => []
  | d :: ds => textContent d ++ go ds

/-- The CSS class that marks a highlight wrapper
(contentScript.js line 321). -/
def hlClass : String := "syllabus-kitty-highlight"

/-- The extra class put on the first highlight
(contentScript.js line 323). -/
def hlFirstClass : String := "syllabus-kitty-highlight-first"

/-- classList.contains for the highlight-marker class. -/
def isHighlightClasses (classes : List String) : Bool := classes.contains hlClass

/-- Does this node or any element inside it carry the highlight-marker
class? -/
def hasHlNode : Dom → Bool
  | .text _ => false
  | .elem _ _ _ cls cs => isHighlightClasses cls || go cs
where go : List Dom → Bool
  | [] => false
  | d :: ds => hasHlNode d || go ds

/-- Does any element in this child forest carry the highlight-marker
class?  This is what
document.querySelectorAll(".syllabus-kitty-highlight") being nonempty
means for a page whose body is not itself a wrapper (the engine only
ever puts the class on spans it creates). -/
def hasHlList (l : List Dom) : Bool := hasHlNode.go l

/-- Does the body have any highlight wrapper below it? -/
def hasHighlightMarks : Dom → Bool
  | .text _ => false
  | .elem _ _ _ _ cs => hasHlList cs

/-- Replace every element carrying the highlight class by its children,
recursively (clearHighlights, contentScript.js lines 352-357: each
wrapper in the querySelectorAll list has its children moved in front of
it and is then removed).  The node-level function returns the
replacement list for that node. -/
def unwrapNode : Dom → List Dom
  | .text s => [.text s]
  | .elem tg i r cls cs =>
    if isHighlightClasses cls then go cs else [.elem tg i r cls (go cs)]
where go : List Dom → List Dom
  | [] => []
  | d :: ds => unwrapNode d ++ go ds

def unwrapList (l : List Dom) : List Dom := unwrapNode.go l

/-- One level of Node.normalize: merge adjacent text nodes and drop
empty text nodes. -/
def mergeAdj : List Dom → List Dom
  | [] => []
  | .text s :: ds =>
    match mergeAdj ds with
    | .text t :: rest => if (s ++ t).isEmpty then rest else .text (s ++ t) :: rest
    | rest => if s.isEmpty then rest else .text s :: rest
  | d :: ds => d :: mergeAdj ds

/-- Node.normalize over a whole subtree (contentScript.js line 358
calls parent.normalize() after each unwrap; the model normalizes the
affected body subtree once, which yields the same merged text nodes). -/
def normalizeNode : Dom → Dom
  | .text s => .text s
  | .elem tg i r cls cs => .elem tg i r cls (mergeAdj (go cs))
where go : List Dom → List Dom
  | [] => []
  | d :: ds => normalizeNode d :: go ds

/-- contentScript.js lines 351-360.  When no wrapper exists the
querySelectorAll list is empty and the function touches nothing, so the
document is returned unchanged. -/
def clearHighlights (d : Dom) : Dom :=
  match d with
  | .text s => .text s
  | .elem tg i r cls cs =>
    if hasHlList cs then normalizeNode (.elem tg i r cls (unwrapList cs)) else d

/-!
## Highlight Engine — contentScript.js lines 281-348
-/

/-- Outcome of the per-phrase TreeWalker pass. -/
inductive WrapSt where
  | notFound
  | skippedParent
  | wrapped
  deriving DecidableEq, Repr

/-- The span created at contentScript.js lines 320-324; it receives the
extra first-highlight class when no earlier span was created. -/
def mkHighlightSpan (isFirst : Bool) (node : Dom) : Dom :=
  .elem "span" "" "" (if isFirst then [hlClass, hlFirstClass] else [hlClass]) [node]

/-- The walker of contentScript.js lines 309-339: visit text nodes in
document order; at the first node whose value contains the snippet,
either wrap it (when its parent is not already a wrapper) or skip it,
and stop the walk for this phrase in both cases.  The node-level
function returns the replacement list for that node; the Bool argument
is whether the parent of the visited node is itself a wrapper. -/
def wrapNode (snippet : Str) (isFirst : Bool) : Bool → Dom → List Dom × WrapSt
  | parentHl, .text s =>
    if containsSeq s snippet then
      if parentHl then ([.text s], .skippedParent)
      else ([mkHighlightSpan isFirst (.text s)], .wrapped)
    else ([.text s], .notFound)
  | _, .elem tg i r cls cs =>
    let (cs', st) := go (isHighlightClasses cls) cs
    ([.elem tg i r cls cs'], st)
where go : Bool → List Dom → List Dom × WrapSt
  | _, [] => ([], .notFound)
  | parentHl, d :: ds =>
    let (d', st) := wrapNode snippet isFirst parentHl d
    if st = .notFound then
      let (ds', st') := go parentHl ds
      (d' ++ ds', st')
    else (d' ++ ds, st)

/-- Run the walker from the body root (document.body is an element, so
only its descendants are candidates). -/
def wrapInDoc (snippet : Str) (isFirst : Bool) (d : Dom) : Dom × WrapSt :=
  match d with
  | .text s => (.text s, .notFound)
  | .elem tg i r cls cs =>
    let (cs', st) := wrapNode.go snippet isFirst (isHighlightClasses cls) cs
    (.elem tg i r cls cs', st)

/-- JS split on the regex class dot/bang/question followed by
whitespace, or two-plus newlines (contentScript.js line 293).  The
scanner mode records whether we are consuming the greedy whitespace
tail of a separator: mode 1 after punctuation-plus-whitespace, mode 2
inside a newline run. -/
def jsSplitGo : Nat → Str → Str → List Str
  | _, acc, [] => [acc.reverse]
  | mode, acc, c :: rest =>
    if mode = 1 && isJsWs c then jsSplitGo 1 acc rest
    else if mode = 2 && c = '\n' then jsSplitGo 2 acc rest
    else if (c = '.' || c = '!' || c = '?') &&
        (match rest with | r :: _ => isJsWs r | [] => false) then
      acc.reverse :: jsSplitGo 1 [] rest
    else if c = '\n' && (match rest with | r :: _ => r = '\n' | [] => false) then
      acc.reverse :: jsSplitGo 2 [] rest
    else jsSplitGo 0 (c :: acc) rest

def jsSplit (t : Str) : List Str := jsSplitGo 0 [] t

/-- The candidate-phrase pipeline of contentScript.js lines 292-296:
split on sentence/paragraph boundaries, trim, keep phrases longer than
30 characters, cap each at 150 characters. -/
def phrasesOf (t : Str) : List Str :=
  (((jsSplit t).map trimStr).filter (fun s => 30 < s.length)).map (fun s => s.take 150)

def maxHighlights : Nat := 100

/-- The highlight loop of contentScript.js lines 302-340.  State:
document, wrap count, and whether a first-highlight span has been
created (the source sets firstHighlight when a matching node is found,
before the parent check, so the flag also flips on a skipped match).
The loop breaks once the count reaches maxHighlights. -/
def highlightLoop : List Str → Dom → Nat → Bool → Dom × Nat × Bool
  | [], d, c, f => (d, c, f)
  | p :: ps, d, c, f =>
    if maxHighlights ≤ c then (d, c, f)
    else if p.length < 30 then highlightLoop ps d c f
    else
      let snippet := p.take 60
      let (d', st) := wrapInDoc snippet (!f) d
      match st with
      | .notFound => highlightLoop ps d' c f
      | .skippedParent => highlightLoop ps d' c true
      | .wrapped => highlightLoop ps d' (c + 1) true

/-- contentScript.js lines 281-348.  The returned number is the
highlightCount the source logs: the number of fragments actually
wrapped by this call.  A falsy or short text returns before any DOM
work (line 282), so the body is unchanged and the count is 0. -/
def highlightExtractedText (textToHighlight : Str) (d : Dom) : Dom × Nat :=
  if textToHighlight.length < 50 then (d, 0)
  else
    let r := highlightLoop (phrasesOf textToHighlight) (clearHighlights d) 0 false
    (r.1, r.2.1)

/-- Claim-side variant for C3, following the claim wording rather than
the source: search at most the first 100 candidate phrases.  The source
instead breaks on the wrap count, so the two differ whenever earlier
phrases wrap fewer than 100 fragments. -/
def highlightClaimFirst100 (textToHighlight : Str) (d : Dom) : Dom × Nat :=
  if textToHighlight.length < 50 then (d, 0)
  else
    let r := highlightLoop ((phrasesOf textToHighlight).take 100) (clearHighlights d) 0 false
    (r.1, r.2.1)

/-!
## Extraction Engine — contentScript.js lines 12-92
-/

/-- The selector shapes the source uses: tag, class, id, and the
role attribute. -/
inductive Selector where
  | tagSel (t : String)
  | classSel (c : String)
  | idSel (i : String)
  | roleSel (r : String)
  deriving DecidableEq, Repr

def selMatches (s : Selector) (tag idAttr role : String) (classes : List String) : Bool :=
  match s with
  | .tagSel t => tag = t
  | .classSel c => classes.contains c
  | .idSel i => idAttr = i
  | .roleSel r => role = r

/-- document.querySelector: first matching element in document order
(the body subtree, the body element included). -/
def querySelector (s : Selector) : Dom → Option Dom
  | .text _ => none
  | .elem tg i r cls cs =>
    if selMatches s tg i r cls then some (.elem tg i r cls cs) else go cs
where go : List Dom → Option Dom
  | [] => none
  | d :: ds =>
    match querySelector s d with
    | some e => some e
    | none => go ds

/-- Priority selectors of extractMainContent
(contentScript.js lines 35-46). -/
def contentSelectors : List Selector :=
  [.tagSel "main", .tagSel "article", .roleSel "main", .classSel "content",
   .classSel "main-content", .idSel "content", .idSel "main", .classSel "syllabus",
   .classSel "course-content", .classSel "document-content"]

/-- Exclusion list of extractFromBody (contentScript.js lines 68-85). -/
def removeSelectors : List Selector :=
  [.tagSel "script", .tagSel "style", .tagSel "noscript", .tagSel "nav",
   .tagSel "header", .tagSel "footer", .tagSel "aside", .classSel "nav",
   .classSel "navigation", .classSel "sidebar", .classSel "menu", .classSel "ads",
   .classSel "advertisement", .classSel "cookie-banner", .classSel "popup",
   .classSel "modal"]

def matchesAny (sels : List Selector) (tg i r : String) (cls : List String) : Bool :=
  sels.any (fun s => selMatches s tg i r cls)

/-- Is this node kept by the exclusion pass (text nodes always, element
nodes unless they match one of the selectors)? -/
def keepNode (sels : List Selector) : Dom → Bool
  | .text _ => true
  | .elem tg i r cls _ => !matchesAny sels tg i r cls

/-- Remove every element matching one of the selectors, with its whole
subtree, keeping the root (querySelectorAll only returns descendants
of the cloned body). -/
def removeMatching (sels : List Selector) : Dom → Dom
  | .text s => .text s
  | .elem tg i r cls cs => .elem tg i r cls (go cs)
where go : List Dom → List Dom
  | [] => []
  | d :: ds => if keepNode sels d then removeMatching sels d :: go ds else go ds

/-- Collapse runs of tab and carriage return to one space
(cleanText step 1, regex tab-or-cr one-or-more to one space). -/
def collapseTabsCrs : Str → Str
  | [] => []
  | [c] => if c = '\t' || c = '\r' then [' '] else [c]
  | c :: c2 :: rest =>
    if (c = '\t' || c = '\r') && (c2 = '\t' || c2 = '\r') then collapseTabsCrs (c2 :: rest)
    else if c = '\t' || c = '\r' then ' ' :: collapseTabsCrs (c2 :: rest)
    else c :: collapseTabsCrs (c2 :: rest)

/-- Collapse runs of three or more newlines to exactly two (cleanText
step 2): a newline followed by two more newlines is dropped, which
keeps the last two of every run. -/
def collapseNewlines3 : Str → Str
  | a :: b :: c :: rest =>
    if a = '\n' && b = '\n' && c = '\n' then collapseNewlines3 (b :: c :: rest)
    else a :: collapseNewlines3 (b :: c :: rest)
  | l => l

/-- Collapse runs of two or more spaces to one space (cleanText
step 3). -/
def collapseSpaces2 : Str → Str
  | [] => []
  | [c] => [c]
  | c :: c2 :: rest =>
    if c = ' ' && c2 = ' ' then collapseSpaces2 (c2 :: rest)
    else c :: collapseSpaces2 (c2 :: rest)

/-- contentScript.js lines 12-28.  The falsy-input early return yields
the empty string, which the pipeline also produces on empty input. -/
def cleanText (t : Str) : Str :=
  let s1 := collapseTabsCrs t
  let s2 := collapseNewlines3 s1
  let s3 := collapseSpaces2 s2
  let s4 := List.intercalate ['\n'] ((s3.splitOn '\n').map trimStr)
  trimStr s4

/-- contentScript.js lines 63-92.  The source works on a detached clone
of the body; in this pure model cloning is value copying, so the input
document is never changed. -/
def extractFromBody (body : Dom) : Str :=
  cleanText (textContent (removeMatching removeSelectors body))

/-- contentScript.js lines 33-58: first selector whose element holds
more than 100 characters of trimmed text wins; otherwise fall back to
the whole-body pass. -/
def extractMainContent (body : Dom) : Str :=
  go contentSelectors
where go : List Selector → Str
  | [] => extractFromBody body
  | s :: rest =>
    match querySelector s body with
    | some el =>
      if 100 < (trimStr (textContent el)).length then cleanText (textContent el)
      else go rest
    | none => go rest

/-- Claim-side characterization for C7: the first selector in priority
order whose element carries more than 100 characters of trimmed
text. -/
def firstQualifyingSelector (body : Dom) : Option Dom :=
  contentSelectors.findSome? (fun s =>
    match querySelector s body with
    | some el => if 100 < (trimStr (textContent el)).length then some el else none
    | none => none)

/-!
## Popup page-content extractor — popup.js (extractPageContent,
lines 1358-1438 of the combined source)
-/

structure Page where
  embeddedPdfUrl : Option String
  isPdfContentType : Bool
  href : String
  pageTitle : String
  body : Dom

structure PageContent where
  isPdf : Bool
  pdfUrl : Option String
  contentTitle : String
  text : Str

/-- Selector priority list of the popup extractor (lines 1383-1393);
unlike extractMainContent it takes the first element found with no
length check, and it has no document-content class entry. -/
def popupContentSelectors : List Selector :=
  [.tagSel "main", .tagSel "article", .roleSel "main", .classSel "content",
   .classSel "main-content", .idSel "content", .idSel "main", .classSel "syllabus",
   .classSel "course-content"]

/-- Exclusion list of the popup extractor (lines 1410-1417). -/
def popupRemoveSelectors : List Selector :=
  [.tagSel "nav", .tagSel "header", .tagSel "footer", .tagSel "aside",
   .classSel "sidebar", .classSel "navigation", .classSel "menu", .classSel "nav",
   .classSel "advertisement", .classSel "ad", .classSel "ads",
   .tagSel "script", .tagSel "style", .tagSel "noscript",
   .roleSel "navigation", .roleSel "banner", .roleSel "contentinfo",
   .classSel "cookie-banner", .classSel "popup", .classSel "modal"]

/-- Lines 1395-1404: take the first selector that finds any element,
else the body. -/
def firstContentElement (body : Dom) : Dom :=
  match popupContentSelectors.findSome? (fun s => querySelector s body) with
  | some el => el
  | none => body

/-- Collapse every whitespace run to a single space (line 1428).  After
this pass no newline remains, so the following newline-pair replace of
line 1429 can never match and is omitted from the model. -/
def collapseAllWs : Str → Str
  | [] => []
  | [c] => if isJsWs c then [' '] else [c]
  | c :: c2 :: rest =>
    if isJsWs c && isJsWs c2 then collapseAllWs (c2 :: rest)
    else if isJsWs c then ' ' :: collapseAllWs (c2 :: rest)
    else c :: collapseAllWs (c2 :: rest)

/-- The full normalized text the popup extractor computes before the
50 000-character cap (lines 1424-1430). -/
def popupExtractedFullText (p : Page) : Str :=
  trimStr (collapseAllWs (textContent (removeMatching popupRemoveSelectors
    (firstContentElement p.body))))

/-- popup.js extractPageContent (lines 1358-1438): embedded PDF and PDF
content types short-circuit; the HTML path returns the normalized text
capped at 50 000 characters. -/
def extractPageContent (p : Page) : PageContent :=
  match p.embeddedPdfUrl with
  | some u => ⟨true, some u, p.pageTitle, []⟩
  | none =>
    if p.isPdfContentType then ⟨true, some p.href, p.pageTitle, []⟩
    else ⟨false, none, p.pageTitle, (popupExtractedFullText p).take 50000⟩

/-!
## Session Store — popup.js restoreSession (lines 1239-1296)
-/

/-- A stored session record; only the fields the restore guards inspect
are modelled.  A malformed record is one whose extractedData is
missing. -/
structure SessionRecord where
  extractedData : Option String
  timestamp : Nat
  deriving DecidableEq, Repr

inductive RestoreOutcome where
  | absent
  | restored (s : SessionRecord)
  deriving DecidableEq, Repr

def sessionMaxAgeMs : Nat := 24 * 60 * 60 * 1000

/-- popup.js lines 1239-1296, as a pure function of the stored record
for the page key and the current time.  The second component is the
storage content for that key after the call (the expiry branch deletes
the record).  Every failure path of the source returns false, never an
error, which the outcome type reflects by having no error case. -/
def restoreSession (stored : Option SessionRecord) (now : Nat) :
    RestoreOutcome × Option SessionRecord :=
  match stored with
  | none => (.absent, none)
  | some s =>
    if s.extractedData.isNone then (.absent, some s)
    else if sessionMaxAgeMs < now - s.timestamp then (.absent, none)
    else (.restored s, some s)

/-!
## Popup Orchestrator — popup.js handlers
-/

inductive PreviewType where
  | original
  | simplified
  | translated
  deriving DecidableEq, Repr

structure HistEntry where
  htype : PreviewType
  content : String
  language : String
  deriving DecidableEq, Repr

/-- The State enum of popup.js lines 502-511. -/
inductive WorkflowState where
  | idle
  | detecting
  | simplifying
  | translating
  | addingToCalendar
  | generatingPdf
  | success
  | error
  deriving DecidableEq, Repr

/-- The module-level mutable popup state (popup.js lines 513-526) plus
the two button-enabled bits the handlers toggle. -/
structure PopupState where
  currentState : WorkflowState
  syllabusData : Option String
  calendarEvents : Option (List String)
  simplifiedMarkdown : Option String
  translatedMarkdown : Option String
  currentLanguage : String
  currentPreviewType : PreviewType
  previewHistory : List HistEntry
  previewText : String
  translateEnabled : Bool
  resetEnabled : Bool
  deriving DecidableEq, Repr

/-- updateState (popup.js lines 1453-1562), restricted to the fields of
the model: the state tag always changes; entering idle re-enables
Translate when a simplified artifact exists (lines 1482-1484);
entering translating disables Translate (line 1512). -/
def updateState (ns : WorkflowState) (st : PopupState) : PopupState :=
  let st' := { st with currentState := ns }
  match ns with
  | .idle => if st'.simplifiedMarkdown.isSome then { st' with translateEnabled := true } else st'
  | .translating => { st' with translateEnabled := false }
  | _ => st'

/-- updatePreview (popup.js lines 1055-1071), restricted to the model:
sets the preview text and the current preview type. -/
def updatePreview (content : String) (t : PreviewType) (st : PopupState) : PopupState :=
  { st with previewText := content, currentPreviewType := t }

/-- pushToHistory (popup.js lines 1049-1052). -/
def pushToHistory (t : PreviewType) (content : String) (lang : String)
    (st : PopupState) : PopupState :=
  let h := st.previewHistory ++ [⟨t, content, lang⟩]
  { st with previewHistory := h, resetEnabled := decide (1 < h.length) }

/-- handleReset (popup.js lines 912-939).  The popped entry is the last
of the array; the new active preview is the last entry remaining after
the pop, and the artifact clearing is keyed on that remaining entry. -/
def handleReset (st : PopupState) : PopupState :=
  if st.previewHistory.length ≤ 1 then st
  else
    let hist := st.previewHistory.dropLast
    match hist.getLast? with
    | some previous =>
      let st₁ := updatePreview previous.content previous.htype { st with previewHistory := hist }
      let st₂ :=
        match previous.htype with
        | .original =>
          { st₁ with
            simplifiedMarkdown := none
            translatedMarkdown := none
            currentLanguage := "en"
            translateEnabled := false }
        | .simplified => { st₁ with translatedMarkdown := none, currentLanguage := "en" }
        | .translated => st₁
      { st₂ with currentPreviewType := previous.htype, resetEnabled := decide (1 < hist.length) }
    | none => { st with previewHistory := hist, resetEnabled := decide (1 < hist.length) }

/-- Outcome of a remote collaborator call. -/
inductive RemoteResult where
  | ok (payload : String)
  | err (message : String)
  deriving DecidableEq, Repr

def simplifyGuardMsg : String := "No syllabus data to simplify. Please detect first."

def translateGuardMsg : String := "No simplified content to translate. Please simplify first."

def calendarGuardMsg : String := "No calendar events to add. Please detect syllabus first."

/-- handleSimplify (popup.js lines 843-869) as a function of the state
and the remote simplify outcome.  Result: new state, whether the remote
collaborator was called, and the user-visible message if any. -/
def handleSimplify (st : PopupState) (remote : RemoteResult) :
    PopupState × Bool × Option String :=
  match st.syllabusData with
  | none => (st, false, some simplifyGuardMsg)
  | some _ =>
    let st₁ := updateState .simplifying st
    match remote with
    | .ok simplified =>
      let st₂ := { st₁ with simplifiedMarkdown := some simplified }
      let st₃ := updatePreview simplified .simplified st₂
      let st₄ := pushToHistory .simplified simplified "en" st₃
      let st₅ := { st₄ with translateEnabled := true }
      (updateState .idle st₅, true, none)
    | .err m => (updateState .error st₁, true, some m)

/-- handleTranslate (popup.js lines 872-908).  Selecting the base
language reverts to the simplified preview with no remote call; in the
remote path currentLanguage is assigned the target before the call
(line 886) and is not restored when the call fails. -/
def handleTranslate (st : PopupState) (targetLanguage : String) (remote : RemoteResult) :
    PopupState × Bool × Option String :=
  match st.simplifiedMarkdown with
  | none => (st, false, some translateGuardMsg)
  | some simplified =>
    if targetLanguage = "en" then
      (updatePreview simplified .simplified { st with currentLanguage := "en" }, false, none)
    else
      let st₁ := updateState .translating { st with currentLanguage := targetLanguage }
      match remote with
      | .ok translated =>
        let st₂ := { st₁ with translatedMarkdown := some translated }
        let st₃ := updatePreview translated .translated st₂
        let st₄ := pushToHistory .translated translated targetLanguage st₃
        (updateState .idle st₄, true, none)
      | .err m => (updateState .error st₁, true, some m)

/-- Outcome of the add-to-calendar flow: the identity facility may
yield no token, otherwise the remote calendar call succeeds or
fails. -/
inductive CalendarOutcome where
  | noToken
  | ok
  | err (m : String)
  deriving DecidableEq, Repr

/-- handleAddToCalendar (popup.js lines 974-1021), guard and outcome
structure. -/
def handleAddToCalendar (st : PopupState) (outcome : CalendarOutcome) :
    PopupState × Bool × Option String :=
  match st.calendarEvents with
  | none => (st, false, some calendarGuardMsg)
  | some evs =>
    if evs.isEmpty then (st, false, some calendarGuardMsg)
    else
      let st₁ := updateState .addingToCalendar st
      match outcome with
      | .noToken => (updateState .error st₁, false, some "Google authentication required")
      | .ok => (updateState .success st₁, true, none)
      | .err m => (updateState .error st₁, true, some m)

/-!
## Concrete scenario inputs
-/

/-- The in-memory popup state right after a successful Detect on an
HTML page (popup.js lines 804-829): artifacts stored, one original
history entry pushed, dependent actions enabled with Translate still
disabled. -/
def stateAfterDetect : PopupState :=
  { currentState := .idle
    syllabusData := some "SYLLABUS-DATA"
    calendarEvents := some ["Final exam event"]
    simplifiedMarkdown := none
    translatedMarkdown := none
    currentLanguage := "en"
    currentPreviewType := .original
    previewHistory := [⟨.original, "ORIGINAL", "en"⟩]
    previewText := "ORIGINAL"
    translateEnabled := false
    resetEnabled := false }

/-- Scenario B prefix: Detect, then a successful Simplify. -/
def stateAfterSimplify : PopupState :=
  (handleSimplify stateAfterDetect (.ok "SIMPLIFIED")).1

/-- Scenario B state: Detect, Simplify, then a successful
Translate("fr"). -/
def stateAfterTranslateFr : PopupState :=
  (handleTranslate stateAfterSimplify "fr" (.ok "TRADUIT")).1

/-- A reachable state with two translated entries on the stack: after
Scenario B, a second successful Translate("es"). -/
def stateAfterTranslateEs : PopupState :=
  (handleTranslate stateAfterTranslateFr "es" (.ok "TRADUCIDO")).1

/-- A guard-failure state: nothing detected yet. -/
def emptyPopupState : PopupState :=
  { currentState := .idle
    syllabusData := none
    calendarEvents := none
    simplifiedMarkdown := none
    translatedMarkdown := none
    currentLanguage := "en"
    currentPreviewType := .original
    previewHistory := []
    previewText := ""
    translateEnabled := false
    resetEnabled := false }

/-- A small marker-free body used by several concrete checks. -/
def sampleBody : Dom :=
  .elem "body" "" "" []
    [.elem "div" "" "" []
      [.text (str "This page has genuinely useful course content text for the fallback path of the engine.")],
     .text (str "Trailing body text.")]

/-- A 33-character phrase that does not occur in the counterexample
document. -/
def junkPhrase : Str := str "abcdefghijklmnopqrstuvwxyz0123456"

/-- The phrase sitting at index 100 of the candidate list of the C3
counterexample text; it is 56 characters long, so its 60-character
search snippet is the phrase itself. -/
def targetPhrase : Str := str "THE TARGET SENTENCE SITS ONLY PAST INDEX ONE HUNDRED HERE"

/-- n junk sentences followed by the target sentence, separated by
period-space boundaries. -/
def cexChain : Nat → Str
  | 0 => targetPhrase
  | n + 1 => junkPhrase ++ (str ". " ++ cexChain n)

/-- 100 junk sentences followed by the target sentence: the target is
candidate phrase number 101, past the first 100. -/
def cex3Text : Str := cexChain 100

/-- A body containing only the target sentence, so the first 100
candidate phrases match nothing. -/
def cex3Doc : Dom := .elem "body" "" "" [] [.text targetPhrase]

/-- A small HTML page for the popup extractor checks. -/
def samplePage : Page :=
  { embeddedPdfUrl := none
    isPdfContentType := false
    href := "https://example.edu/syllabus"
    pageTitle := "Course Syllabus"
    body := sampleBody }

/-!
## General lemmas about the string helpers
-/

theorem startsWithL_iff (n h : Str) : startsWithL n h = true ↔ n <+: h := by
  induction n generalizing h with
  | nil => simp [startsWithL]
  | cons a as ih =>
    cases h with
    | nil => simp [startsWithL]
    | cons b bs => simp [startsWithL, ih]

theorem containsSeq_iff (h n : Str) : containsSeq h n = true ↔ n <:+: h := by
  induction h with
  | nil => simp [containsSeq, startsWithL_iff]
  | cons a t ih =>
    rw [containsSeq]
    simp [startsWithL_iff, ih, List.infix_cons_iff]

theorem highlightLoop_count_le (l : List Str) : ∀ (d : Dom) (c : Nat) (f : Bool),
    c ≤ 100 → (highlightLoop l d c f).2.1 ≤ 100 := by
  induction l with
  | nil => intro d c f h; exact h
  | cons p ps ih =>
    intro d c f h
    rw [highlightLoop]
    split
    · exact h
    next hc =>
      split
      · exact ih _ _ _ h
      · have hc' : c < 100 := by simpa [maxHighlights] using hc
        cases hw : wrapInDoc (p.take 60) (!f) d with
        | mk d' st =>
          simp only [hw]
          cases st with
          | notFound => exact ih _ _ _ h
          | skippedParent => exact ih _ _ _ h
          | wrapped => exact ih _ _ _ (by omega)

theorem highlightLoop_stop (l : List Str) (d : Dom) (c : Nat) (f : Bool)
    (h : 100 ≤ c) : highlightLoop l d c f = (d, c, f) := by
  cases l with
  | nil => rfl
  | cons p ps =>
    rw [highlightLoop, if_pos]
    simpa [maxHighlights] using h

theorem highlightLoop_append (l₁ : List Str) : ∀ (l₂ : List Str) (d : Dom) (c : Nat) (f : Bool),
    highlightLoop (l₁ ++ l₂) d c f
      = highlightLoop l₂ (highlightLoop l₁ d c f).1
          (highlightLoop l₁ d c f).2.1 (highlightLoop l₁ d c f).2.2 := by
  induction l₁ with
  | nil => intro l₂ d c f; rfl
  | cons p ps ih =>
    intro l₂ d c f
    by_cases hc : maxHighlights ≤ c
    · have h100 : 100 ≤ c := by simpa [maxHighlights] using hc
      rw [List.cons_append, highlightLoop_stop _ _ _ _ h100,
        highlightLoop_stop _ _ _ _ h100]
      exact (highlightLoop_stop _ _ _ _ h100).symm
    · by_cases hp : p.length < 30
      · have hL : highlightLoop (p :: ps) d c f = highlightLoop ps d c f := by
          rw [highlightLoop, if_neg hc, if_pos hp]
        rw [List.cons_append, highlightLoop, if_neg hc, if_pos hp, hL]
        exact ih _ _ _ _
      · cases hw : wrapInDoc (p.take 60) (!f) d with
        | mk d' st =>
          cases st with
          | notFound =>
            have e1 : highlightLoop (p :: ps) d c f = highlightLoop ps d' c f := by
              rw [highlightLoop, if_neg hc, if_neg hp]
              simp only [hw]
            have e2 : highlightLoop (p :: (ps ++ l₂)) d c f
                = highlightLoop (ps ++ l₂) d' c f := by
              rw [highlightLoop, if_neg hc, if_neg hp]
              simp only [hw]
            rw [List.cons_append, e2, e1]
            exact ih _ _ _ _
          | skippedParent =>
            have e1 : highlightLoop (p :: ps) d c f = highlightLoop ps d' c true := by
              rw [highlightLoop, if_neg hc, if_neg hp]
              simp only [hw]
            have e2 : highlightLoop (p :: (ps ++ l₂)) d c f
                = highlightLoop (ps ++ l₂) d' c true := by
              rw [highlightLoop, if_neg hc, if_neg hp]
              simp only [hw]
            rw [List.cons_append, e2, e1]
            exact ih _ _ _ _
          | wrapped =>
            have e1 : highlightLoop (p :: ps) d c f = highlightLoop ps d' (c + 1) true := by
              rw [highlightLoop, if_neg hc, if_neg hp]
              simp only [hw]
            have e2 : highlightLoop (p :: (ps ++ l₂)) d c f
                = highlightLoop (ps ++ l₂) d' (c + 1) true := by
              rw [highlightLoop, if_neg hc, if_neg hp]
              simp only [hw]
            rw [List.cons_append, e2, e1]
            exact ih _ _ _ _

/-!
## Claim theorems
-/

/-- C1.  For every page text the Syllabus Detector satisfies
confidence = min(matchedTerms.length / 5, 1) and isMatch iff at least
3 indicators matched; matchedTerms are exactly the distinct vocabulary
phrases occurring case-insensitively as substrings of the text;
confidence always lies in [0,1]; and the text containing exactly the
indicators "syllabus", "office hours", "grading policy" yields a match
with confidence 0.6. -/
theorem detectSyllabusContent_spec (pageText : Str) :
    (detectSyllabusContent pageText).confidence
      = min (((detectSyllabusContent pageText).matchedTerms.length : ℚ) / 5) 1
    ∧ ((detectSyllabusContent pageText).isSyllabus = true
        ↔ 3 ≤ (detectSyllabusContent pageText).matchedTerms.length)
    ∧ (∀ ind, ind ∈ (detectSyllabusContent pageText).matchedTerms
        ↔ ind ∈ syllabusIndicators ∧ toLowerStr ind <:+: toLowerStr pageText)
    ∧ (detectSyllabusContent pageText).matchedTerms.Nodup
    ∧ 0 ≤ (detectSyllabusContent pageText).confidence
    ∧ (detectSyllabusContent pageText).confidence ≤ 1
    ∧ (detectSyllabusContent (str "syllabus office hours grading policy")).isSyllabus = true
    ∧ (detectSyllabusContent (str "syllabus office hours grading policy")).confidence = 3/5 := by
  have hlow : ∀ ind ∈ syllabusIndicators, toLowerStr ind = ind := by decide
  refine ⟨rfl, by simp [detectSyllabusContent], ?_, ?_, ?_, ?_, by decide, ?_⟩
  · intro ind
    simp only [detectSyllabusContent, List.mem_filter]
    constructor
    · rintro ⟨hv, hc⟩
      exact ⟨hv, by rw [hlow ind hv]; exact (containsSeq_iff _ _).mp hc⟩
    · rintro ⟨hv, hc⟩
      exact ⟨hv, (containsSeq_iff _ _).mpr (by rwa [hlow ind hv] at hc)⟩
  · exact List.Nodup.filter _ (by decide)
  · simp only [detectSyllabusContent]
    positivity
  · simp only [detectSyllabusContent]
    exact min_le_right _ _
  · have hlen : (detectSyllabusContent
        (str "syllabus office hours grading policy")).matchedTerms.length = 3 := by decide
    show min (((detectSyllabusContent
        (str "syllabus office hours grading policy")).matchedTerms.length : ℚ) / 5) 1 = 3/5
    rw [hlen]
    norm_num

/-- C2.  For every input text, highlight wraps at most 100 fragments,
and for every text shorter than 50 characters it changes nothing in the
document and reports a wrap count of 0. -/
theorem highlightExtractedText_bounds (t : Str) (d : Dom) :
    (highlightExtractedText t d).2 ≤ 100
    ∧ (t.length < 50 → highlightExtractedText t d = (d, 0)) := by
  constructor
  · rw [highlightExtractedText]
    split
    · exact Nat.zero_le _
    · exact highlightLoop_count_le _ _ _ _ (Nat.zero_le _)
  · intro h
    rw [highlightExtractedText, if_pos h]

/-- Witness for C2 at the 5-character input of Scenario C. -/
theorem highlightExtractedText_bounds_witness :
    (str "short").length < 50
    ∧ highlightExtractedText (str "short") sampleBody = (sampleBody, 0) :=
  ⟨by decide, (highlightExtractedText_bounds (str "short") sampleBody).2 (by decide)⟩

/-- C5.  Session restore never yields a record older than 24 hours: an
expired well-formed record is reported absent and deleted from storage,
a missing record is absent, and a malformed record (one with no
extractedData) is absent without touching storage; no path is an
error. -/
theorem restoreSession_ttl (stored : Option SessionRecord) (now : Nat) :
    (∀ s, (restoreSession stored now).1 = RestoreOutcome.restored s →
        now - s.timestamp ≤ sessionMaxAgeMs)
    ∧ restoreSession none now = (RestoreOutcome.absent, none)
    ∧ (∀ s, stored = some s → s.extractedData = none →
        restoreSession stored now = (RestoreOutcome.absent, some s))
    ∧ (∀ s, stored = some s → s.extractedData.isSome →
        sessionMaxAgeMs < now - s.timestamp →
        restoreSession stored now = (RestoreOutcome.absent, none)) := by
  refine ⟨?_, rfl, ?_, ?_⟩
  · intro s h
    cases stored with
    | none => simp [restoreSession] at h
    | some r =>
      by_cases h1 : r.extractedData.isNone
      · simp [restoreSession, h1] at h
      · by_cases h2 : sessionMaxAgeMs < now - r.timestamp
        · simp [restoreSession, h1, h2] at h
        · simp [restoreSession, h1, h2] at h
          subst h
          omega
  · intro s hs hdata
    subst hs
    simp [restoreSession, hdata]
  · intro s hs hdata hexp
    subst hs
    simp [restoreSession, Option.isNone_iff_eq_none, hexp]
    intro hnone
    rw [hnone] at hdata
    simp at hdata

/-- Witness for C5: a malformed record is absent without deletion, and
an expired record is absent with deletion. -/
theorem restoreSession_ttl_witness :
    restoreSession (some ⟨none, 5⟩) 10 = (RestoreOutcome.absent, some ⟨none, 5⟩)
    ∧ restoreSession (some ⟨some "extracted", 0⟩) (sessionMaxAgeMs + 1)
        = (RestoreOutcome.absent, none) :=
  ⟨(restoreSession_ttl (some ⟨none, 5⟩) 10).2.2.1 ⟨none, 5⟩ rfl rfl,
   (restoreSession_ttl (some ⟨some "extracted", 0⟩) (sessionMaxAgeMs + 1)).2.2.2
     ⟨some "extracted", 0⟩ rfl rfl (by simp [sessionMaxAgeMs])⟩

/-- C6 counterexample.  In the reachable state with history original,
simplified, translated(fr), translated(es), the top entry popped by
Reset is a translated entry, yet translatedMarkdown is not cleared: the
source keys its clearing on the type of the remaining top entry, not
on the popped one. -/
theorem handleReset_cex :
    stateAfterTranslateEs.previewHistory.getLast?
        = some ⟨PreviewType.translated, "TRADUCIDO", "es"⟩
    ∧ (handleReset stateAfterTranslateEs).translatedMarkdown = some "TRADUCIDO"
    ∧ (handleReset stateAfterTranslateEs).translatedMarkdown ≠ none := by
  refine ⟨by decide, by decide, by decide⟩

/-- C6 amended.  Reset is a no-op when the history has at most one
entry; otherwise it pops the top entry and restores the remaining top
as the active preview, and the artifact clearing is keyed on the type
of that remaining top entry: an original top clears both artifacts and
disables Translate, a simplified top clears translatedMarkdown, and a
translated top clears nothing.  Scenario B (Detect, Simplify,
Translate("fr"), Reset) still returns the preview to the simplified
content with translatedMarkdown cleared. -/
theorem handleReset_spec (st : PopupState) :
    (st.previewHistory.length ≤ 1 → handleReset st = st)
    ∧ (∀ previous, 2 ≤ st.previewHistory.length →
        st.previewHistory.dropLast.getLast? = some previous →
        (handleReset st).previewHistory = st.previewHistory.dropLast
        ∧ (handleReset st).previewText = previous.content
        ∧ (handleReset st).currentPreviewType = previous.htype
        ∧ (previous.htype = PreviewType.original →
            (handleReset st).simplifiedMarkdown = none
            ∧ (handleReset st).translatedMarkdown = none
            ∧ (handleReset st).currentLanguage = "en"
            ∧ (handleReset st).translateEnabled = false)
        ∧ (previous.htype = PreviewType.simplified →
            (handleReset st).translatedMarkdown = none
            ∧ (handleReset st).simplifiedMarkdown = st.simplifiedMarkdown
            ∧ (handleReset st).currentLanguage = "en")
        ∧ (previous.htype = PreviewType.translated →
            (handleReset st).translatedMarkdown = st.translatedMarkdown
            ∧ (handleReset st).simplifiedMarkdown = st.simplifiedMarkdown
            ∧ (handleReset st).currentLanguage = st.currentLanguage))
    ∧ (handleReset stateAfterTranslateFr).previewText = "SIMPLIFIED"
    ∧ (handleReset stateAfterTranslateFr).currentPreviewType = PreviewType.simplified
    ∧ (handleReset stateAfterTranslateFr).translatedMarkdown = none
    ∧ (handleReset stateAfterTranslateFr).simplifiedMarkdown = some "SIMPLIFIED" := by
  refine ⟨?_, ?_, by decide, by decide, by decide, by decide⟩
  · intro h
    rw [handleReset, if_pos h]
  · intro previous hlen hlast
    have hnot : ¬ st.previewHistory.length ≤ 1 := by omega
    rw [handleReset, if_neg hnot]
    simp only [hlast]
    cases previous.htype <;>
      simp_all [updatePreview]

/-- Witness for C6: the no-op case on an empty history and the pop case
on the two-translations state. -/
theorem handleReset_spec_witness :
    handleReset emptyPopupState = emptyPopupState
    ∧ (handleReset stateAfterTranslateEs).previewHistory
        = stateAfterTranslateEs.previewHistory.dropLast :=
  ⟨(handleReset_spec emptyPopupState).1 (by decide),
   ((handleReset_spec stateAfterTranslateEs).2.1
      ⟨PreviewType.translated, "TRADUIT", "fr"⟩ (by decide) (by decide)).1⟩

/-- C8.  Each guarded action invoked without its prerequisite artifact
produces only an inline message: the state is returned unchanged and
no remote call is made. -/
theorem guardFailures_noop (st : PopupState) :
    (st.syllabusData = none →
        ∀ r, handleSimplify st r = (st, false, some simplifyGuardMsg))
    ∧ (st.simplifiedMarkdown = none →
        ∀ lang r, handleTranslate st lang r = (st, false, some translateGuardMsg))
    ∧ (∀ o, st.calendarEvents = none ∨ st.calendarEvents = some [] →
        handleAddToCalendar st o = (st, false, some calendarGuardMsg)) := by
  refine ⟨?_, ?_, ?_⟩
  · intro h r
    simp [handleSimplify, h]
  · intro h lang r
    simp [handleTranslate, h]
  · rintro o (h | h) <;> simp [handleAddToCalendar, h]

/-- Witness for C8 on the pre-detection state. -/
theorem guardFailures_noop_witness :
    handleSimplify emptyPopupState (RemoteResult.ok "S")
        = (emptyPopupState, false, some simplifyGuardMsg)
    ∧ handleTranslate emptyPopupState "fr" (RemoteResult.ok "T")
        = (emptyPopupState, false, some translateGuardMsg)
    ∧ handleAddToCalendar emptyPopupState CalendarOutcome.ok
        = (emptyPopupState, false, some calendarGuardMsg) :=
  ⟨(guardFailures_noop emptyPopupState).1 rfl _,
   (guardFailures_noop emptyPopupState).2.1 rfl _ _,
   (guardFailures_noop emptyPopupState).2.2 _ (Or.inl rfl)⟩

/-- C10.  When the remote translate call fails, the artifacts, the
history stack and the preview are unchanged, the remote collaborator
was called, the workflow state is error — but currentLanguage was
already set to the requested target before the call and is not
restored. -/
theorem handleTranslate_failure (st : PopupState) (lang m : String)
    (hs : st.simplifiedMarkdown.isSome) (hl : lang ≠ "en") :
    (handleTranslate st lang (RemoteResult.err m)).1.translatedMarkdown
        = st.translatedMarkdown
    ∧ (handleTranslate st lang (RemoteResult.err m)).1.simplifiedMarkdown
        = st.simplifiedMarkdown
    ∧ (handleTranslate st lang (RemoteResult.err m)).1.previewHistory
        = st.previewHistory
    ∧ (handleTranslate st lang (RemoteResult.err m)).1.previewText = st.previewText
    ∧ (handleTranslate st lang (RemoteResult.err m)).1.currentLanguage = lang
    ∧ (handleTranslate st lang (RemoteResult.err m)).1.currentState = WorkflowState.error
    ∧ (handleTranslate st lang (RemoteResult.err m)).2.1 = true
    ∧ (handleTranslate st lang (RemoteResult.err m)).2.2 = some m := by
  cases hsm : st.simplifiedMarkdown with
  | none => rw [hsm] at hs; simp at hs
  | some s =>
    simp [handleTranslate, hsm, hl, updateState]

/-- Witness for C10: a failed Translate("fr") right after Simplify
reports language fr while the translated artifact stays absent. -/
theorem handleTranslate_failure_witness :
    (handleTranslate stateAfterSimplify "fr" (RemoteResult.err "boom")).1.currentLanguage
        = "fr"
    ∧ (handleTranslate stateAfterSimplify "fr" (RemoteResult.err "boom")).1.translatedMarkdown
        = stateAfterSimplify.translatedMarkdown :=
  ⟨(handleTranslate_failure stateAfterSimplify "fr" "boom" (by decide) (by decide)).2.2.2.2.1,
   (handleTranslate_failure stateAfterSimplify "fr" "boom" (by decide) (by decide)).1⟩

theorem extractMainContent_go_eq (body : Dom) (sels : List Selector) :
    extractMainContent.go body sels
      = match sels.findSome? (fun s =>
          match querySelector s body with
          | some el => if 100 < (trimStr (textContent el)).length then some el else none
          | none => none) with
        | some el => cleanText (textContent el)
        | none => extractFromBody body := by
  induction sels with
  | nil => rfl
  | cons s rest ih =>
    rw [extractMainContent.go]
    cases hq : querySelector s body with
    | none => simp [List.findSome?_cons, hq, ih]
    | some el =>
      by_cases hlen : 100 < (trimStr (textContent el)).length
      · simp [List.findSome?_cons, hq, hlen]
      · simp [List.findSome?_cons, hq, hlen, ih]

/-- C7.  The Extraction Engine returns the cleaned text of the first
selector in the fixed priority list whose element holds more than 100
characters of trimmed text; when no selector qualifies it falls back to
the exclusion-stripped body (computed on a detached copy — the model is
a pure function of the document, which never changes), and a page with
body content then still yields a non-empty cleanedText. -/
theorem extractMainContent_spec (body : Dom) :
    (extractMainContent body
      = match firstQualifyingSelector body with
        | some el => cleanText (textContent el)
        | none => extractFromBody body)
    ∧ (firstQualifyingSelector body = none →
        extractMainContent body
          = cleanText (textContent (removeMatching removeSelectors body)))
    ∧ (firstQualifyingSelector body = none → extractFromBody body ≠ [] →
        extractMainContent body ≠ []) := by
  have h : extractMainContent body
      = match firstQualifyingSelector body with
        | some el => cleanText (textContent el)
        | none => extractFromBody body :=
    extractMainContent_go_eq body contentSelectors
  refine ⟨h, ?_, ?_⟩
  · intro hn
    rw [h, hn]
    rfl
  · intro hn hne
    rw [h, hn]
    exact hne

/-- Witness for C7: Scenario D on a page none of whose priority
selectors matches, with a content-bearing body. -/
theorem extractMainContent_spec_witness :
    firstQualifyingSelector sampleBody = none
    ∧ extractMainContent sampleBody
        = cleanText (textContent (removeMatching removeSelectors sampleBody))
    ∧ extractMainContent sampleBody ≠ [] :=
  ⟨rfl, (extractMainContent_spec sampleBody).2.1 rfl,
   (extractMainContent_spec sampleBody).2.2 rfl (by decide)⟩

/-- C9.  The text the popup's injected extractor hands onward is capped
at 50 000 characters: on the HTML path it is exactly the first 50 000
characters of the normalized page text, anything beyond being dropped;
the spec never states this bound. -/
theorem extractPageContent_cap (p : Page) :
    (extractPageContent p).text.length ≤ 50000
    ∧ ((extractPageContent p).isPdf = false →
        (extractPageContent p).text = (popupExtractedFullText p).take 50000) := by
  cases hp : p.embeddedPdfUrl with
  | some u =>
    constructor
    · simp [extractPageContent, hp]
    · intro h
      simp [extractPageContent, hp] at h
  | none =>
    by_cases hpdf : p.isPdfContentType
    · constructor
      · simp [extractPageContent, hp, hpdf]
      · intro h
        simp [extractPageContent, hp, hpdf] at h
    · constructor
      · simp only [extractPageContent, hp, if_neg hpdf]
        simp [List.length_take]
      · intro h
        simp [extractPageContent, hp, hpdf]

/-- Witness for C9 on a concrete HTML page. -/
theorem extractPageContent_cap_witness :
    (extractPageContent samplePage).isPdf = false
    ∧ (extractPageContent samplePage).text = (popupExtractedFullText samplePage).take 50000 :=
  ⟨rfl, (extractPageContent_cap samplePage).2 rfl⟩

theorem tc_go_append (a b : List Dom) :
    textContent.go (a ++ b) = textContent.go a ++ textContent.go b := by
  induction a with
  | nil => simp [textContent.go]
  | cons d ds ih => simp [textContent.go, ih]

mutual
theorem tc_unwrapNode : ∀ d : Dom, textContent.go (unwrapNode d) = textContent d
  | .text s => by simp [unwrapNode, textContent.go, textContent]
  | .elem tg i r cls cs => by
    rw [unwrapNode]
    by_cases h : isHighlightClasses cls
    · rw [if_pos h, tc_unwrapGo cs, textContent]
    · rw [if_neg h]
      simp [textContent.go, textContent, tc_unwrapGo cs]
theorem tc_unwrapGo : ∀ l : List Dom, textContent.go (unwrapNode.go l) = textContent.go l
  | [] => rfl
  | d :: ds => by
    rw [unwrapNode.go, tc_go_append, tc_unwrapNode d, tc_unwrapGo ds]
    rfl
end

theorem tc_mergeAdj (l : List Dom) : textContent.go (mergeAdj l) = textContent.go l := by
  induction l using mergeAdj.induct with
  | case1 => rfl
  | case2 s ds t rest e h ih =>
    rw [e] at ih
    simp only [textContent.go, textContent] at ih
    obtain ⟨hs, ht⟩ : s = [] ∧ t = [] := by
      simpa [List.isEmpty_iff, List.append_eq_nil] using h
    subst hs; subst ht
    rw [mergeAdj.eq_def]
    simp only [e, textContent.go, textContent]
    simp_all [textContent, textContent.go]
  | case3 s ds t rest e h ih =>
    rw [e] at ih
    simp only [textContent.go, textContent] at ih
    rw [mergeAdj.eq_def]
    simp only [e, textContent.go, textContent]
    have hne : ¬ ((s ++ t).isEmpty = true) := h
    rw [if_neg hne]
    simp [textContent, textContent.go, ← ih, List.append_assoc]
  | case4 s ds hs hne ih =>
    have hs' : s = [] := by simpa [List.isEmpty_iff] using hs
    subst hs'
    rw [mergeAdj.eq_def]
    cases hm : mergeAdj ds with
    | nil => simp_all [textContent.go, textContent]
    | cons hd rest =>
      cases hd with
      | text t => exact absurd hm (by intro hh; exact hne t rest hh)
      | elem tg i r cls cs => simp_all [textContent.go, textContent]
  | case5 s ds hs hne ih =>
    rw [mergeAdj.eq_def]
    cases hm : mergeAdj ds with
    | nil => simp_all [textContent.go]
    | cons hd rest =>
      cases hd with
      | text t => exact absurd hm (by intro hh; exact hne t rest hh)
      | elem tg i r cls cs => simp_all [textContent.go]
  | case6 d ds hne ih =>
    cases d with
    | text s => exact absurd rfl (by intro hh; exact hne s hh)
    | elem tg i r cls cs =>
      rw [mergeAdj.eq_def]
      simp_all [textContent.go]

mutual
theorem tc_normalizeNode : ∀ d : Dom, textContent (normalizeNode d) = textContent d
  | .text s => rfl
  | .elem tg i r cls cs => by
    rw [normalizeNode]
    show textContent.go (mergeAdj (normalizeNode.go cs)) = textContent.go cs
    rw [tc_mergeAdj, tc_normalizeGo cs]
theorem tc_normalizeGo : ∀ l : List Dom,
    textContent.go (normalizeNode.go l) = textContent.go l
  | [] => rfl
  | d :: ds => by
    rw [normalizeNode.go]
    show textContent (normalizeNode d) ++ textContent.go (normalizeNode.go ds)
        = textContent d ++ textContent.go ds
    rw [tc_normalizeNode d, tc_normalizeGo ds]
end

theorem tc_clearHighlights (d : Dom) : textContent (clearHighlights d) = textContent d := by
  cases d with
  | text s => rfl
  | elem tg i r cls cs =>
    simp only [clearHighlights]
    by_cases h : hasHlList cs
    · rw [if_pos h, tc_normalizeNode]
      show textContent.go (unwrapList cs) = textContent.go cs
      exact tc_unwrapGo cs
    · rw [if_neg h]

theorem hasHl_go_append (a b : List Dom) :
    hasHlNode.go (a ++ b) = (hasHlNode.go a || hasHlNode.go b) := by
  induction a with
  | nil => simp [hasHlNode.go]
  | cons d ds ih => simp [hasHlNode.go, ih, Bool.or_assoc]

mutual
theorem noHl_unwrapNode : ∀ d : Dom, hasHlNode.go (unwrapNode d) = false
  | .text s => by simp [unwrapNode, hasHlNode.go, hasHlNode]
  | .elem tg i r cls cs => by
    rw [unwrapNode]
    by_cases h : isHighlightClasses cls
    · rw [if_pos h]
      exact noHl_unwrapGo cs
    · rw [if_neg h]
      simp only [hasHlNode.go, hasHlNode]
      simp [h, noHl_unwrapGo cs]
theorem noHl_unwrapGo : ∀ l : List Dom, hasHlNode.go (unwrapNode.go l) = false
  | [] => rfl
  | d :: ds => by
    rw [unwrapNode.go, hasHl_go_append, noHl_unwrapNode d, noHl_unwrapGo ds]
    rfl
end

theorem hasHl_mergeAdj (l : List Dom) : hasHlNode.go (mergeAdj l) = hasHlNode.go l := by
  induction l using mergeAdj.induct with
  | case1 => rfl
  | case2 s ds t rest e h ih =>
    rw [e] at ih
    rw [mergeAdj.eq_def]
    simp only [e]
    simp_all [hasHlNode.go, hasHlNode]
  | case3 s ds t rest e h ih =>
    rw [e] at ih
    rw [mergeAdj.eq_def]
    simp only [e]
    have hne : ¬ ((s ++ t).isEmpty = true) := h
    rw [if_neg hne]
    simp_all [hasHlNode.go, hasHlNode]
  | case4 s ds hs hne ih =>
    rw [mergeAdj.eq_def]
    cases hm : mergeAdj ds with
    | nil => simp_all [hasHlNode.go, hasHlNode]
    | cons hd rest =>
      cases hd with
      | text t => exact absurd hm (by intro hh; exact hne t rest hh)
      | elem tg i r cls cs => simp_all [hasHlNode.go, hasHlNode]
  | case5 s ds hs hne ih =>
    rw [mergeAdj.eq_def]
    cases hm : mergeAdj ds with
    | nil => simp_all [hasHlNode.go, hasHlNode]
    | cons hd rest =>
      cases hd with
      | text t => exact absurd hm (by intro hh; exact hne t rest hh)
      | elem tg i r cls cs => simp_all [hasHlNode.go, hasHlNode]
  | case6 d ds hne ih =>
    cases d with
    | text s => exact absurd rfl (by intro hh; exact hne s hh)
    | elem tg i r cls cs =>
      rw [mergeAdj.eq_def]
      simp_all [hasHlNode.go]

mutual
theorem hasHl_normalizeNode : ∀ d : Dom, hasHlNode (normalizeNode d) = hasHlNode d
  | .text s => rfl
  | .elem tg i r cls cs => by
    rw [normalizeNode]
    show (isHighlightClasses cls || hasHlNode.go (mergeAdj (normalizeNode.go cs)))
        = (isHighlightClasses cls || hasHlNode.go cs)
    rw [hasHl_mergeAdj, hasHl_normalizeGo cs]
theorem hasHl_normalizeGo : ∀ l : List Dom,
    hasHlNode.go (normalizeNode.go l) = hasHlNode.go l
  | [] => rfl
  | d :: ds => by
    rw [normalizeNode.go]
    show (hasHlNode (normalizeNode d) || hasHlNode.go (normalizeNode.go ds))
        = (hasHlNode d || hasHlNode.go ds)
    rw [hasHl_normalizeNode d, hasHl_normalizeGo ds]
end

theorem clearHighlights_noop (d : Dom) (h : hasHighlightMarks d = false) :
    clearHighlights d = d := by
  cases d with
  | text s => rfl
  | elem tg i r cls cs =>
    have h' : hasHlList cs = false := h
    simp only [clearHighlights]
    rw [if_neg (by simp [h'])]

theorem noHl_clearHighlights (d : Dom) : hasHighlightMarks (clearHighlights d) = false := by
  cases d with
  | text s => rfl
  | elem tg i r cls cs =>
    cases hhl : hasHlList cs with
    | false =>
      simp only [clearHighlights]
      rw [if_neg (by simp [hhl])]
      exact hhl
    | true =>
      simp only [clearHighlights]
      rw [if_pos (by simp [hhl])]
      rw [normalizeNode]
      show hasHlList (mergeAdj (normalizeNode.go (unwrapList cs))) = false
      show hasHlNode.go (mergeAdj (normalizeNode.go (unwrapNode.go cs))) = false
      rw [hasHl_mergeAdj, hasHl_normalizeGo, noHl_unwrapGo]

theorem clearHighlights_idem (d : Dom) :
    clearHighlights (clearHighlights d) = clearHighlights d :=
  clearHighlights_noop _ (noHl_clearHighlights d)

mutual
theorem tc_wrapNode : ∀ (sn : Str) (fi ph : Bool) (d : Dom),
    textContent.go (wrapNode sn fi ph d).1 = textContent d
  | sn, fi, ph, .text s => by
    rw [wrapNode]
    by_cases h : containsSeq s sn
    · rw [if_pos h]
      cases ph with
      | true => simp [textContent.go, textContent]
      | false => simp [mkHighlightSpan, textContent.go, textContent]
    · rw [if_neg h]
      simp [textContent.go, textContent]
  | sn, fi, ph, .elem tg i r cls cs => by
    rw [wrapNode]
    cases hw : wrapNode.go sn fi (isHighlightClasses cls) cs with
    | mk cs' st =>
      have h1 := tc_wrapGo sn fi (isHighlightClasses cls) cs
      rw [hw] at h1
      simp only [hw]
      simp [textContent.go, textContent, h1]
theorem tc_wrapGo : ∀ (sn : Str) (fi ph : Bool) (l : List Dom),
    textContent.go (wrapNode.go sn fi ph l).1 = textContent.go l
  | sn, fi, ph, [] => rfl
  | sn, fi, ph, d :: ds => by
    rw [wrapNode.go]
    cases hd : wrapNode sn fi ph d with
    | mk d' st =>
      have h1 := tc_wrapNode sn fi ph d
      rw [hd] at h1
      simp only [hd]
      by_cases hst : st = WrapSt.notFound
      · rw [if_pos hst]
        cases hg : wrapNode.go sn fi ph ds with
        | mk ds' st' =>
          have h2 := tc_wrapGo sn fi ph ds
          rw [hg] at h2
          simp only [hg]
          show textContent.go (d' ++ ds') = textContent.go (d :: ds)
          rw [tc_go_append, h1, h2]
          rfl
      · rw [if_neg hst]
        show textContent.go (d' ++ ds) = textContent.go (d :: ds)
        rw [tc_go_append, h1]
        rfl
end

theorem tc_wrapInDoc (sn : Str) (fi : Bool) (d : Dom) :
    textContent (wrapInDoc sn fi d).1 = textContent d := by
  cases d with
  | text s => rfl
  | elem tg i r cls cs =>
    rw [wrapInDoc]
    cases hw : wrapNode.go sn fi (isHighlightClasses cls) cs with
    | mk cs' st =>
      have h1 := tc_wrapGo sn fi (isHighlightClasses cls) cs
      rw [hw] at h1
      simp only [hw]
      exact h1

theorem tc_highlightLoop (l : List Str) : ∀ (d : Dom) (c : Nat) (f : Bool),
    textContent (highlightLoop l d c f).1 = textContent d := by
  induction l with
  | nil => intro d c f; rfl
  | cons p ps ih =>
    intro d c f
    rw [highlightLoop]
    split
    · rfl
    · split
      · exact ih _ _ _
      · cases hw : wrapInDoc (p.take 60) (!f) d with
        | mk d' st =>
          have h1 := tc_wrapInDoc (p.take 60) (!f) d
          rw [hw] at h1
          simp only [hw]
          cases st with
          | notFound => rw [ih]; exact h1
          | skippedParent => rw [ih]; exact h1
          | wrapped => rw [ih]; exact h1

theorem tc_highlightExtractedText (t : Str) (d : Dom) :
    textContent (highlightExtractedText t d).1 = textContent d := by
  rw [highlightExtractedText]
  split
  · rfl
  · show textContent (highlightLoop (phrasesOf t) (clearHighlights d) 0 false).1 = _
    rw [tc_highlightLoop, tc_clearHighlights]

/-- C4.  After any sequence of highlight calls, clear restores the
visible text content of the body to its pre-highlight value; clear on
a document with no highlight markers returns it unchanged, and clear
is idempotent. -/
theorem clearHighlights_roundtrip (d : Dom) (ts : List Str) :
    textContent (clearHighlights
        (ts.foldl (fun e t => (highlightExtractedText t e).1) d)) = textContent d
    ∧ (hasHighlightMarks d = false → clearHighlights d = d)
    ∧ clearHighlights (clearHighlights d) = clearHighlights d := by
  refine ⟨?_, clearHighlights_noop d, clearHighlights_idem d⟩
  have hfold : ∀ (ts : List Str) (e : Dom),
      textContent (ts.foldl (fun e t => (highlightExtractedText t e).1) e)
        = textContent e := by
    intro ts
    induction ts with
    | nil => intro e; rfl
    | cons t ts ih =>
      intro e
      rw [List.foldl_cons, ih, tc_highlightExtractedText]
  rw [tc_clearHighlights, hfold]

/-- Witness for C4: round-trip through two highlight calls on a marker
free body, and the no-op case of clear. -/
theorem clearHighlights_roundtrip_witness :
    textContent (clearHighlights
        ([cex3Text, str "short"].foldl
          (fun e t => (highlightExtractedText t e).1) sampleBody))
      = textContent sampleBody
    ∧ hasHighlightMarks sampleBody = false
    ∧ clearHighlights sampleBody = sampleBody :=
  ⟨(clearHighlights_roundtrip sampleBody [cex3Text, str "short"]).1, rfl,
   (clearHighlights_roundtrip sampleBody [cex3Text, str "short"]).2.1 rfl⟩

theorem jsSplitGo_clean (piece : Str)
    (h : ∀ c ∈ piece, ¬(c = '.' ∨ c = '!' ∨ c = '?' ∨ c = '\n')) :
    ∀ (acc rest : Str),
      jsSplitGo 0 acc (piece ++ rest) = jsSplitGo 0 (piece.reverse ++ acc) rest := by
  induction piece with
  | nil => intro acc rest; simp
  | cons c cs ih =>
    intro acc rest
    have hc := h c (List.mem_cons_self c cs)
    push_neg at hc
    obtain ⟨h1, h2, h3, h4⟩ := hc
    rw [List.cons_append]
    rw [show jsSplitGo 0 acc (c :: (cs ++ rest))
        = jsSplitGo 0 (c :: acc) (cs ++ rest) from by
      simp only [jsSplitGo]
      rw [if_neg (by simp), if_neg (by simp),
        if_neg (by simp [h1, h2, h3]), if_neg (by simp [h4])]]
    rw [ih (fun x hx => h x (List.mem_cons_of_mem c hx)) (c :: acc) rest]
    simp [List.append_assoc]

theorem jsSplitGo_clean_only (piece : Str)
    (h : ∀ c ∈ piece, ¬(c = '.' ∨ c = '!' ∨ c = '?' ∨ c = '\n')) (acc : Str) :
    jsSplitGo 0 acc piece = [acc.reverse ++ piece] := by
  have h0 := jsSplitGo_clean piece h acc []
  rw [List.append_nil] at h0
  rw [h0]
  show [(piece.reverse ++ acc).reverse] = [acc.reverse ++ piece]
  simp

theorem jsSplitGo_dot_space (acc rest : Str) :
    jsSplitGo 0 acc ('.' :: ' ' :: rest) = acc.reverse :: jsSplitGo 1 [] (' ' :: rest) := by
  simp [jsSplitGo, isJsWs]

theorem jsSplitGo_ws1 (acc rest : Str) :
    jsSplitGo 1 acc (' ' :: rest) = jsSplitGo 1 acc rest := by
  simp [jsSplitGo, isJsWs]

theorem jsSplitGo_mode1_exit (acc : Str) (l : Str)
    (h : ∀ c rest, l = c :: rest → isJsWs c = false) :
    jsSplitGo 1 acc l = jsSplitGo 0 acc l := by
  cases l with
  | nil => rfl
  | cons c rest =>
    have hc := h c rest rfl
    simp [jsSplitGo, hc]

theorem cexChain_head (n : Nat) : ∀ c rest, cexChain n = c :: rest → isJsWs c = false := by
  cases n with
  | zero =>
    intro c rest h
    have h2 : c :: rest
        = 'T' :: (str "HE TARGET SENTENCE SITS ONLY PAST INDEX ONE HUNDRED HERE") := by
      rw [← h]; rfl
    injection h2 with hc _
    rw [hc]
    decide
  | succ m =>
    intro c rest h
    have h2 : c :: rest
        = 'a' :: ((str "bcdefghijklmnopqrstuvwxyz0123456") ++ (str ". " ++ cexChain m)) := by
      rw [← h]; rfl
    injection h2 with hc _
    rw [hc]
    decide

theorem jsSplit_cexChain : ∀ n, jsSplit (cexChain n)
    = List.replicate n junkPhrase ++ [targetPhrase] := by
  have hj : ∀ c ∈ junkPhrase, ¬(c = '.' ∨ c = '!' ∨ c = '?' ∨ c = '\n') := by decide
  have ht : ∀ c ∈ targetPhrase, ¬(c = '.' ∨ c = '!' ∨ c = '?' ∨ c = '\n') := by decide
  intro n
  induction n with
  | zero =>
    show jsSplitGo 0 [] (cexChain 0) = [targetPhrase]
    rw [show cexChain 0 = targetPhrase from rfl]
    rw [jsSplitGo_clean_only targetPhrase ht []]
    rfl
  | succ m ih =>
    show jsSplitGo 0 [] (cexChain (m + 1)) = _
    rw [show cexChain (m + 1) = junkPhrase ++ ('.' :: ' ' :: cexChain m) from rfl]
    rw [jsSplitGo_clean junkPhrase hj [] ('.' :: ' ' :: cexChain m)]
    rw [jsSplitGo_dot_space, jsSplitGo_ws1]
    rw [jsSplitGo_mode1_exit [] (cexChain m) (cexChain_head m)]
    have ih' : jsSplitGo 0 [] (cexChain m)
        = List.replicate m junkPhrase ++ [targetPhrase] := ih
    rw [ih', List.replicate_succ, List.cons_append]
    simp

theorem phrasesOf_cex3Text :
    phrasesOf cex3Text = List.replicate 100 junkPhrase ++ [targetPhrase] := by
  rw [phrasesOf, show cex3Text = cexChain 100 from rfl, jsSplit_cexChain 100]
  rw [List.map_append, List.map_replicate]
  rw [show trimStr junkPhrase = junkPhrase from rfl]
  rw [show List.map trimStr [targetPhrase] = [targetPhrase] from rfl]
  have hfr : ∀ k, List.filter (fun s : Str => 30 < s.length)
      (List.replicate k junkPhrase) = List.replicate k junkPhrase := by
    intro k
    induction k with
    | zero => rfl
    | succ j ihj =>
      rw [List.replicate_succ, List.filter_cons]
      simp only [ihj]
      rw [if_pos (by decide)]
  rw [List.filter_append, hfr 100]
  rw [show List.filter (fun s : Str => 30 < s.length) [targetPhrase]
      = [targetPhrase] from by rw [List.filter_cons, if_pos (by decide)]; rfl]
  rw [List.map_append, List.map_replicate]
  rw [show junkPhrase.take 150 = junkPhrase from rfl]
  rw [show List.map (fun s : Str => s.take 150) [targetPhrase] = [targetPhrase] from rfl]

theorem cex3Text_len : 50 ≤ cex3Text.length := by
  rw [show cex3Text
      = junkPhrase ++ ('.' :: ' ' :: (junkPhrase ++ ('.' :: ' ' :: cexChain 98))) from rfl]
  have hj : junkPhrase.length = 33 := by decide
  simp [List.length_append, hj]
  omega

theorem highlightLoop_junk_skip : ∀ (n : Nat) (ps : List Str),
    highlightLoop (List.replicate n junkPhrase ++ ps) cex3Doc 0 false
      = highlightLoop ps cex3Doc 0 false := by
  intro n
  induction n with
  | zero => intro ps; rfl
  | succ m ih =>
    intro ps
    rw [List.replicate_succ, List.cons_append]
    have step : highlightLoop (junkPhrase :: (List.replicate m junkPhrase ++ ps))
        cex3Doc 0 false
        = highlightLoop (List.replicate m junkPhrase ++ ps) cex3Doc 0 false := rfl
    rw [step, ih]

set_option maxRecDepth 4000 in
/-- C3 counterexample.  On a text whose candidate list has 101 phrases
of which only the 101st occurs in the document, the source wraps one
fragment (it searches past the first 100 phrases because fewer than
100 wraps have happened), while the claim-side variant that searches
only the first 100 phrases wraps none. -/
theorem highlightFirst100_cex :
    (highlightExtractedText cex3Text cex3Doc).2 = 1
    ∧ (highlightClaimFirst100 cex3Text cex3Doc).2 = 0
    ∧ (phrasesOf cex3Text).length = 101 := by
  have hlen := cex3Text_len
  have hnot : ¬ (cex3Text.length < 50) := by omega
  refine ⟨?_, ?_, ?_⟩
  · rw [highlightExtractedText, if_neg hnot]
    show (highlightLoop (phrasesOf cex3Text) (clearHighlights cex3Doc) 0 false).2.1 = 1
    rw [phrasesOf_cex3Text, show clearHighlights cex3Doc = cex3Doc from rfl]
    rw [highlightLoop_junk_skip 100 [targetPhrase]]
    rfl
  · rw [highlightClaimFirst100, if_neg hnot]
    show (highlightLoop ((phrasesOf cex3Text).take 100)
        (clearHighlights cex3Doc) 0 false).2.1 = 0
    rw [phrasesOf_cex3Text, show clearHighlights cex3Doc = cex3Doc from rfl]
    rw [show (List.replicate 100 junkPhrase ++ [targetPhrase]).take 100
        = List.replicate 100 junkPhrase from
      List.take_left' (by simp)]
    rw [show List.replicate 100 junkPhrase
        = List.replicate 100 junkPhrase ++ ([] : List Str) from by simp]
    rw [highlightLoop_junk_skip 100 []]
    rfl
  · rw [phrasesOf_cex3Text]
    simp

/-- C3 amended.  For a text of length at least 50 the engine builds the
candidate list by the split/trim/filter/cap pipeline of phrasesOf and
runs the loop over the whole list: the loop processes phrases in
original order and stops only once 100 fragments have been wrapped
(its state composes over list concatenation, and it is constant as
soon as the wrap count has reached 100) — so a phrase past the first
100 is searched, and can be wrapped, whenever the earlier phrases
wrapped fewer than 100 fragments. -/
theorem highlightPhrases_amended (t : Str) (d : Dom) (h : 50 ≤ t.length) :
    highlightExtractedText t d
      = ((highlightLoop (phrasesOf t) (clearHighlights d) 0 false).1,
         (highlightLoop (phrasesOf t) (clearHighlights d) 0 false).2.1)
    ∧ (∀ (l₁ l₂ : List Str) (e : Dom) (c : Nat) (f : Bool),
        highlightLoop (l₁ ++ l₂) e c f
          = highlightLoop l₂ (highlightLoop l₁ e c f).1
              (highlightLoop l₁ e c f).2.1 (highlightLoop l₁ e c f).2.2)
    ∧ (∀ (l : List Str) (e : Dom) (c : Nat) (f : Bool),
        100 ≤ c → highlightLoop l e c f = (e, c, f)) := by
  refine ⟨?_, fun l₁ l₂ e c f => highlightLoop_append l₁ l₂ e c f,
    fun l e c f hc => highlightLoop_stop l e c f hc⟩
  rw [highlightExtractedText, if_neg (by omega)]

/-- Witness for the amended C3 at the counterexample text. -/
theorem highlightPhrases_amended_witness :
    50 ≤ cex3Text.length
    ∧ highlightExtractedText cex3Text cex3Doc
        = ((highlightLoop (phrasesOf cex3Text) (clearHighlights cex3Doc) 0 false).1,
           (highlightLoop (phrasesOf cex3Text) (clearHighlights cex3Doc) 0 false).2.1) :=
  ⟨cex3Text_len, (highlightPhrases_amended cex3Text cex3Doc cex3Text_len).1⟩
